import Mathlib

/-!
Verification of the indexing-and-search core of a small code-search web
application (`app/main.py`, class `RepoSearchApp`).

The embedding translates the Python source into Lean:

* `clone_repo` models `RepoSearchApp.clone_repo`, including the Python
  path arithmetic `os.path.splitext(os.path.basename(url))[0]` and
  `os.path.join`, the pre-fetch `rm -rf` of a stale working copy, and the
  external `git clone` call (an oracle `gitOk : String → Bool`, since the
  network is outside the program).
* `index_repository` models `RepoSearchApp.index_repository`: the walked
  files are an oracle `List FileEntry` (filesystem contents are external);
  the size test, the UTF-8 decode test (`FileEntry.text : Option String`,
  `none` when decoding raises `UnicodeDecodeError`) and the produced
  `INSERT` statements are translated from the source.
* `index_repositories` models `RepoSearchApp.index_repositories`:
  `DELETE FROM file_contents` first, then clone-and-index each URL.  The
  guard `if repo_name:` is Python truthiness: it skips a clone that
  returned `None` and also a clone that returned the empty string (the
  derived name of a location ending in `/`).
* `search_files` models `RepoSearchApp.search_files`: the SQLite FTS5
  engine is modelled for plain term queries — a query is tokenized into
  case-folded alphanumeric runs, an empty token list is a syntax error
  (SQLite rejects `MATCH ''`), a row matches when every query token occurs
  as a token of one of its five columns, and `snippet(file_contents, 0,
  '...', '...', '...', 50)` is modelled by `ftsSnippet` applied to the
  text of column 0 with matched tokens wrapped in the `'...'` markers
  (the 50-token windowing is elided; on short column values SQLite
  returns the whole column text, which is the modelled case).

The SQLite table `file_contents` is modelled as a list of `Row` in rowid
(insertion) order; SQL statements executed by the program are the
constructors of `Stmt`, and `execStmt` gives their effect on the table.
-/

/-! ## Characters and strings -/

/-- Decides whether the first character list is a leading segment of the
second (used to model Python's `str.startswith` and path checks). -/
def charsLead : List Char → List Char → Bool
  | [], _ => true
  | _ :: _, [] => false
  | a :: as, b :: bs => a == b && charsLead as bs

/-- Scans for the tail of the final `/`-separated segment. -/
def basenameAux : List Char → List Char → List Char
  | [], acc => acc.reverse
  | c :: rest, acc =>
      if c == '/' then basenameAux rest [] else basenameAux rest (c :: acc)

/-- Model of `os.path.basename` (POSIX): the part after the last `/`.
For a string ending in `/` the basename is the empty string. -/
def basename (p : String) : String := String.mk (basenameAux p.data [])

/-- Index of the last `.` in the character list, if any. -/
def lastDotIdx (cs : List Char) : Option Nat :=
  match cs.reverse.findIdx? (· == '.') with
  | none => none
  | some k => some (cs.length - 1 - k)

/-- Model of `os.path.splitext(p)[0]` for strings without `/` (the code
applies it to a basename): cut at the last dot, unless every character
before that dot is itself a dot (so `".git"` and `""` are unchanged). -/
def splitextRoot (p : String) : String :=
  match lastDotIdx p.data with
  | none => p
  | some di =>
      if (p.data.takeWhile (· == '.')).length < di then String.mk (p.data.take di)
      else p

/-- Model of `os.path.join a b` (POSIX, two arguments): `b` wins if it is
absolute; joining with an empty tail appends only the separator, so
`pathJoin "repos" "" = "repos/"`. -/
def pathJoin (a b : String) : String :=
  if charsLead ['/'] b.data then b
  else if a.data = [] then b
  else if charsLead ['/'] a.data.reverse then a ++ b
  else a ++ "/" ++ b

/-- Strips one trailing `/`, so that `repos/` and `repos` name the same
directory. -/
def normDir (p : String) : String :=
  if charsLead ['/'] p.data.reverse then String.mk p.data.dropLast else p

/-! ## Filesystem and repository fetch -/

/-- The filesystem is modelled as the list of existing directories
(the repositories root and the working-copy directories under it). -/
def fsExists (fs : List String) (p : String) : Bool :=
  fs.contains (normDir p)

/-- Model of `subprocess.run(["rm", "-rf", p])`: removes the directory
`p` and every directory below it. -/
def rmRf (fs : List String) (p : String) : List String :=
  let q := normDir p
  fs.filter (fun d => !(d == q || charsLead (q ++ "/").data d.data))

/-- Model of `RepoSearchApp.clone_repo`.  `gitOk` is the outcome oracle of
the external `git clone` subprocess (`false` = non-zero exit, caught as
`CalledProcessError`, the method prints and returns `None`).  Returns the
filesystem after the call and the returned repository name (`none` models
Python's `None`). -/
def clone_repo (gitOk : String → Bool) (repos_dir : String) (fs : List String)
    (repo_url : String) : List String × Option String :=
  let repo_name := splitextRoot (basename repo_url)
  let repo_path := pathJoin repos_dir repo_name
  let fs1 := if fsExists fs repo_path then rmRf fs repo_path else fs
  if gitOk repo_url then (fs1 ++ [normDir repo_path], some repo_name)
  else (fs1, none)

/-! ## The index store -/

/-- One row of the FTS5 table `file_contents`. -/
structure Row where
  repo_name : String
  filepath : String
  filename : String
  content : String
  last_modified : String
deriving DecidableEq

/-- The table as a list of rows in rowid (insertion) order. -/
abbrev DB := List Row

/-- The SQL statements the program executes against `file_contents`. -/
inductive Stmt where
  | deleteAllRows : Stmt
  | insertRow : Row → Stmt
  | selectQuery : Stmt
deriving DecidableEq

/-- Effect of one statement on the table: `DELETE FROM file_contents`
empties it, `INSERT` appends one row, a `SELECT` changes nothing. -/
def execStmt (db : DB) : Stmt → DB
  | Stmt.deleteAllRows => []
  | Stmt.insertRow r => db ++ [r]
  | Stmt.selectQuery => db

/-- Effect of a statement sequence, first to last. -/
def execStmts (db : DB) (l : List Stmt) : DB := l.foldl execStmt db

/-! ## Walking and indexing one repository -/

/-- What `index_repository` observes about one file found by `os.walk`:
its path relative to the repository root, its size in bytes
(`os.path.getsize`), the decoded content (`none` when reading with
`encoding='utf-8'` raises `UnicodeDecodeError`), and the formatted
`st_mtime` timestamp. -/
structure FileEntry where
  relpath : String
  size : Nat
  text : Option String
  mtime : String
deriving DecidableEq

/-- The row the `INSERT` in `index_repository` builds for a surviving
file: its `filename` is the base name of the relative path, exactly as
`os.walk` yields it. -/
def rowOfFile (repo_name : String) (f : FileEntry) (content : String) : Row :=
  { repo_name := repo_name, filepath := f.relpath, filename := basename f.relpath,
    content := content, last_modified := f.mtime }

/-- Per-file step of `index_repository`: `continue` when the size exceeds
1,000,000 bytes, `continue` when UTF-8 decoding fails, otherwise insert
one row. -/
def fileStmt (repo_name : String) (f : FileEntry) : Option Stmt :=
  if f.size > 1000000 then none
  else
    match f.text with
    | none => none
    | some content => some (Stmt.insertRow (rowOfFile repo_name f content))

/-- The `INSERT` statements `index_repository` executes over the walked
files, in walk order. -/
def index_repository_stmts (repo_name : String) (files : List FileEntry) : List Stmt :=
  files.filterMap (fileStmt repo_name)

/-- The rows a repository contributes: its files that pass the size and
decoding filters. -/
def fileRow (repo_name : String) (f : FileEntry) : Option Row :=
  if f.size > 1000000 then none else f.text.map (rowOfFile repo_name f)

/-- All rows contributed by one repository's walked files. -/
def repo_rows (repo_name : String) (files : List FileEntry) : DB :=
  files.filterMap (fileRow repo_name)

/-- Model of `RepoSearchApp.index_repository`: executes the per-file
inserts against the table. -/
def index_repository (db : DB) (repo_name : String) (files : List FileEntry) : DB :=
  execStmts db (index_repository_stmts repo_name files)

/-! ## The bulk reindex -/

/-- Loop body of `index_repositories`: clone each URL in order, and when
the clone result passes the truthiness test `if repo_name:` — it is not
`None` and not the empty string — index that working copy.  `walk` is
the filesystem-contents oracle: the files found under
`repos_dir/repo_name` after a fresh clone. -/
def index_repos_loop (gitOk : String → Bool) (walk : String → List FileEntry)
    (repos_dir : String) : List String → List String × DB → List String × DB
  | [], st => st
  | url :: rest, st =>
      let r := clone_repo gitOk repos_dir st.1 url
      let db1 := match r.2 with
        | some n => if n = "" then st.2 else index_repository st.2 n (walk n)
        | none => st.2
      index_repos_loop gitOk walk repos_dir rest (r.1, db1)

/-- Model of `RepoSearchApp.index_repositories`: `DELETE FROM
file_contents` first, then clone and index every URL of the list. -/
def index_repositories (gitOk : String → Bool) (walk : String → List FileEntry)
    (repos_dir : String) (fs : List String) (db : DB) (repo_urls : List String) :
    List String × DB :=
  index_repos_loop gitOk walk repos_dir repo_urls (fs, execStmts db [Stmt.deleteAllRows])

/-- The rows a reindex run is expected to leave behind: for each URL whose
clone succeeds and whose derived name `splitext(basename(url))[0]` is
truthy (non-empty), the filtered files of that repository, in order.  A
failed clone and a successful clone of a location ending in `/` (empty
derived name, falsy under `if repo_name:`) contribute nothing. -/
def expected_rows (gitOk : String → Bool) (walk : String → List FileEntry) :
    List String → DB
  | [] => []
  | u :: rest =>
      (if gitOk u then
         if splitextRoot (basename u) = "" then []
         else repo_rows (splitextRoot (basename u)) (walk (splitextRoot (basename u)))
       else []) ++
        expected_rows gitOk walk rest

/-! ## The FTS5 search model -/

/-- FTS5 `unicode61` token characters, restricted to ASCII: letters and
digits. -/
def isTokChar (c : Char) : Bool := c.isAlphanum

/-- ASCII case folding, as the `unicode61` tokenizer performs. -/
def lowerChar (c : Char) : Char :=
  if 65 ≤ c.toNat ∧ c.toNat ≤ 90 then Char.ofNat (c.toNat + 32) else c

/-- Splits a character stream into case-folded alphanumeric tokens.  The
accumulator holds the current token reversed. -/
def tokensAux : List Char → List Char → List String
  | [], cur => if cur = [] then [] else [String.mk cur.reverse]
  | c :: rest, cur =>
      if isTokChar c then tokensAux rest (lowerChar c :: cur)
      else if cur = [] then tokensAux rest []
      else String.mk cur.reverse :: tokensAux rest []

/-- The FTS5 tokens of a string. -/
def ftsTokens (s : String) : List String := tokensAux s.data []

/-- All tokens of a row, over its five indexed columns. -/
def rowTokens (r : Row) : List String :=
  ftsTokens r.repo_name ++ ftsTokens r.filepath ++ ftsTokens r.filename ++
    ftsTokens r.content ++ ftsTokens r.last_modified

/-- Whether a row satisfies `file_contents MATCH q` for the token list of
a plain term query: every query token occurs in some column. -/
def rowMatches (ts : List String) (r : Row) : Bool :=
  ts.all (fun t => (rowTokens r).contains t)

/-- Wraps one token of the snippet column in the match markers when it is
one of the query tokens (the output keeps the original case). -/
def wrapTok (ts : List String) (mo mc : String) (tok : List Char) : String :=
  if ts.contains (String.mk (tok.map lowerChar)) then mo ++ String.mk tok ++ mc
  else String.mk tok

/-- Walks the snippet column's characters, emitting separators verbatim
and tokens through `wrapTok`.  The accumulator holds the current token
reversed. -/
def markAux (ts : List String) (mo mc : String) : List Char → List Char → String
  | [], cur => if cur = [] then "" else wrapTok ts mo mc cur.reverse
  | c :: rest, cur =>
      if isTokChar c then markAux ts mo mc rest (c :: cur)
      else
        (if cur = [] then "" else wrapTok ts mo mc cur.reverse) ++
          String.mk [c] ++ markAux ts mo mc rest []

/-- Model of SQLite `snippet(file_contents, col, mo, mc, ellipsis, 50)`
on the text of the selected column: matched tokens are wrapped in the
markers.  The 50-token window and the ellipsis are elided — for column
values shorter than the window SQLite returns the whole column text,
which is the modelled case. -/
def ftsSnippet (ts : List String) (coltext : String) (mo mc : String) : String :=
  markAux ts mo mc coltext.data []

/-- The text of the numbered FTS5 column of the `file_contents` table:
`0 = repo_name, 1 = filepath, 2 = filename, 3 = content,
4 = last_modified`. -/
def colText (r : Row) : Nat → String
  | 0 => r.repo_name
  | 1 => r.filepath
  | 2 => r.filename
  | 3 => r.content
  | _ => r.last_modified

/-- The error SQLite raises for malformed FTS5 query syntax
(`sqlite3.OperationalError` in Python). -/
structure QueryError where
  msg : String
deriving DecidableEq

/-- Model of FTS5 query parsing for plain term queries: the empty token
list — in particular `MATCH ''` — is a syntax error.  The real engine
additionally rejects further malformed syntax outside the plain term
fragment (unbalanced quotes, dangling operators such as a trailing
`AND`); the model does not cover those queries, so theorems about
accepted queries quantify only over `plainTermQuery`. -/
def ftsMatchParse (q : String) : Except QueryError (List String) :=
  if ftsTokens q = [] then Except.error { msg := "fts5: syntax error" }
  else Except.ok (ftsTokens q)

/-- Characters of a plain FTS5 term query, free of all quoting and
operator syntax: ASCII lowercase letters, digits, and the space
separator.  Uppercase is excluded because the bare words `AND`, `OR`
and `NOT` are FTS5 operators. -/
def plainQueryChar (c : Char) : Bool :=
  (97 ≤ c.toNat && c.toNat ≤ 122) || (48 ≤ c.toNat && c.toNat ≤ 57) || c.toNat == 32

/-- The queries on which the FTS5 model is exact: only plain term
characters, and at least one token.  Real FTS5 parses every such query
as an implicit conjunction of its terms and raises no syntax error on
it; outside this fragment the engine can reject queries that
`ftsMatchParse` accepts. -/
def plainTermQuery (q : String) : Bool :=
  q.data.all plainQueryChar && !(ftsTokens q).isEmpty

/-- One result row of the `SELECT`: `repo_name, filepath, filename` and
the `preview` computed by `snippet(file_contents, 0, '...', '...',
'...', 50)` — column index 0, the `repo_name` column. -/
structure Hit where
  repo_name : String
  filepath : String
  filename : String
  preview : String
deriving DecidableEq

/-- Builds the selected columns of one matching row; the snippet column
index is the literal `0` of the source query. -/
def hitOfRow (ts : List String) (r : Row) : Hit :=
  { repo_name := r.repo_name, filepath := r.filepath, filename := r.filename,
    preview := ftsSnippet ts (colText r 0) "..." "..." }

/-- Executes the `SELECT … WHERE file_contents MATCH ? LIMIT ?`: parse the
query (raising on malformed syntax), keep the matching rows in rowid
order, build the hits, truncate to `limit`. -/
def runMatchQuery (db : DB) (q : String) (limit : Nat) : Except QueryError (List Hit) :=
  match ftsMatchParse q with
  | Except.error e => Except.error e
  | Except.ok ts =>
      Except.ok (((db.filter (fun r => rowMatches ts r)).map (hitOfRow ts)).take limit)

/-- Model of `RepoSearchApp.search_files`: returns the table after the
call (the `SELECT` mutates nothing) and the fetched result — or the
uncaught `QueryError`, since the method has no exception handler. -/
def search_files (db : DB) (q : String) (limit : Nat) :
    DB × Except QueryError (List Hit) :=
  (execStmts db [Stmt.selectQuery], runMatchQuery db q limit)

/-- The Python signature is `search_files(self, query, limit=50)`:
omitting the limit means 50. -/
def search_files_default (db : DB) (q : String) : DB × Except QueryError (List Hit) :=
  search_files db q 50

/-- Number of hits fetched, zero when the query raised. -/
def hitCount : Except QueryError (List Hit) → Nat
  | Except.error _ => 0
  | Except.ok l => l.length

/-- Whether the call escaped with an exception instead of returning. -/
def raisesQE : Except QueryError (List Hit) → Bool
  | Except.error _ => true
  | Except.ok _ => false

/-! ## Concrete fixtures -/

/-- A row whose `content` holds the match the snippet ought to surround,
while its `repo_name` does not contain the query term. -/
def bugRow : Row :=
  { repo_name := "strompris", filepath := "docs/readme.md", filename := "readme.md",
    content := "say hello world", last_modified := "2024-05-01T10:00:00" }

/-- A matching row of the five-match scenario table. -/
def mRow (fp : String) : Row :=
  { repo_name := "demo", filepath := fp, filename := basename fp,
    content := "hello world", last_modified := "2024-05-01T10:00:00" }

/-- A table with five rows matching `hello` and one row matching nothing
of the kind. -/
def fiveMatchDb : DB :=
  [mRow "a1.md", mRow "a2.md", mRow "a3.md", mRow "a4.md", mRow "a5.md",
   { repo_name := "demo", filepath := "other.md", filename := "other.md",
     content := "nothing here", last_modified := "2024-05-01T10:00:00" }]

/-- The hit built from `mRow "a1.md"`. -/
def cHit1 : Hit :=
  { repo_name := "demo", filepath := "a1.md", filename := "a1.md", preview := "demo" }

/-- The hit built from `mRow "a2.md"`. -/
def cHit2 : Hit :=
  { repo_name := "demo", filepath := "a2.md", filename := "a2.md", preview := "demo" }

/-- Walked files of a small repository: one indexable file, one oversized
file, one file that is not UTF-8 text. -/
def cFiles : List FileEntry :=
  [{ relpath := "a.txt", size := 10, text := some "hello", mtime := "t1" },
   { relpath := "big.bin", size := 2000000, text := some "x", mtime := "t2" },
   { relpath := "bin.dat", size := 5, text := none, mtime := "t3" }]

/-- The single insert the walk of `cFiles` produces. -/
def cStmtA : Stmt :=
  Stmt.insertRow { repo_name := "demo", filepath := "a.txt", filename := "a.txt",
                   content := "hello", last_modified := "t1" }

/-- Clone oracle for which exactly the location `bad://x` fails. -/
def cGitOk : String → Bool := fun u => !(u == "bad://x")

/-- Walk oracle: every repository holds the `cFiles` tree. -/
def cWalk : String → List FileEntry := fun _ => cFiles

/-- A one-row table with no occurrence of the token `zzz`. -/
def cDb : DB := [bugRow]

/-! ## Helper lemmas -/

theorem filterMap_filter_eq {α β : Type} (g : α → Option β) (p : α → Bool)
    (h : ∀ a, p a = false → g a = none) :
    ∀ l : List α, l.filterMap g = (l.filter p).filterMap g := by
  intro l
  induction l with
  | nil => rfl
  | cons a rest ih =>
      cases hp : p a with
      | false => simp [List.filter_cons, hp, List.filterMap_cons, h a hp, ih]
      | true => simp [List.filter_cons, hp, List.filterMap_cons, ih]

theorem filter_eq_nil_of_none {α : Type} (p : α → Bool) :
    ∀ l : List α, (∀ a ∈ l, p a = false) → l.filter p = [] := by
  intro l
  induction l with
  | nil => intro _; rfl
  | cons a rest ih =>
      intro h
      have h1 : p a = false := h a (List.mem_cons_self a rest)
      have h2 : rest.filter p = [] := ih (fun x hx => h x (List.mem_cons_of_mem a hx))
      simp [List.filter_cons, h1, h2]

theorem fileStmt_eq (n : String) (f : FileEntry) :
    fileStmt n f = (fileRow n f).map Stmt.insertRow := by
  unfold fileStmt fileRow
  by_cases h : f.size > 1000000
  · simp [h]
  · cases ht : f.text <;> simp [h, ht]

theorem stmts_eq_map_insert (n : String) (files : List FileEntry) :
    index_repository_stmts n files = (repo_rows n files).map Stmt.insertRow := by
  unfold index_repository_stmts repo_rows
  rw [List.map_filterMap]
  have he : fileStmt n = fun f => (fileRow n f).map Stmt.insertRow := funext (fileStmt_eq n)
  rw [he]

theorem execStmts_insert_list : ∀ (rows : List Row) (db : DB),
    execStmts db (rows.map Stmt.insertRow) = db ++ rows := by
  intro rows
  induction rows with
  | nil => intro db; simp [execStmts]
  | cons r rest ih =>
      intro db
      show execStmts (execStmt db (Stmt.insertRow r)) (rest.map Stmt.insertRow) = db ++ r :: rest
      rw [ih]
      simp [execStmt]

theorem index_repository_rows (db : DB) (n : String) (files : List FileEntry) :
    index_repository db n files = db ++ repo_rows n files := by
  unfold index_repository
  rw [stmts_eq_map_insert, execStmts_insert_list]

theorem clone_repo_snd (gitOk : String → Bool) (rd : String) (fs : List String) (u : String) :
    (clone_repo gitOk rd fs u).2
      = if gitOk u then some (splitextRoot (basename u)) else none := by
  unfold clone_repo
  by_cases h : gitOk u <;> simp [h]

theorem index_repos_loop_rows (gitOk : String → Bool) (walk : String → List FileEntry)
    (rd : String) : ∀ (urls : List String) (fs : List String) (db : DB),
    (index_repos_loop gitOk walk rd urls (fs, db)).2 = db ++ expected_rows gitOk walk urls := by
  intro urls
  induction urls with
  | nil => intro fs db; simp [index_repos_loop, expected_rows]
  | cons u rest ih =>
      intro fs db
      have hc := clone_repo_snd gitOk rd fs u
      by_cases h : gitOk u
      · rw [if_pos h] at hc
        by_cases hn : splitextRoot (basename u) = ""
        · simp [index_repos_loop, hc, hn, ih, expected_rows, h]
        · simp [index_repos_loop, hc, hn, ih, index_repository_rows, expected_rows, h]
      · rw [if_neg h] at hc
        simp [index_repos_loop, hc, ih, expected_rows, h]

theorem index_repositories_rows (gitOk : String → Bool) (walk : String → List FileEntry)
    (rd : String) (fs : List String) (db : DB) (urls : List String) :
    (index_repositories gitOk walk rd fs db urls).2 = expected_rows gitOk walk urls := by
  unfold index_repositories
  rw [index_repos_loop_rows]
  rfl

theorem expected_rows_append (gitOk : String → Bool) (walk : String → List FileEntry) :
    ∀ a b : List String,
    expected_rows gitOk walk (a ++ b)
      = expected_rows gitOk walk a ++ expected_rows gitOk walk b := by
  intro a b
  induction a with
  | nil => simp [expected_rows]
  | cons u rest ih => simp [expected_rows, ih]

theorem fileStmt_text_none (n : String) (f : FileEntry) (ht : f.text = none) :
    fileStmt n f = none := by
  unfold fileStmt
  by_cases hsize : f.size > 1000000
  · rw [if_pos hsize]
  · rw [if_neg hsize, ht]

/-! ## The claims -/

/-- C1, counterexample: contrary to the claim, the empty query string does
not return an empty sequence — `MATCH ''` is an FTS5 syntax error and
`search_files` has no exception handler, so the error escapes to the
caller. -/
theorem search_empty_query_raises : raisesQE (search_files cDb "" 50).2 = true := rfl

/-- C1, amended: for every limit, a plain term query — lowercase letters,
digits and spaces only, with at least one search token, the fragment on
which the FTS5 model is exact — that matches no row of the table returns
the empty sequence and does not raise.  The empty query string, however,
is malformed FTS5 syntax and the resulting error propagates uncaught out
of `search_files`; other malformed syntax the engine rejects (unbalanced
quotes, dangling operators) escapes the same way. -/
theorem search_no_match_returns_nil (db : DB) (q : String) (limit : Nat)
    (hq : plainTermQuery q = true)
    (hnm : ∀ r ∈ db, rowMatches (ftsTokens q) r = false) :
    (search_files db q limit).2 = Except.ok [] := by
  have hne : ftsTokens q ≠ [] := by
    unfold plainTermQuery at hq
    intro hcon
    rw [hcon] at hq
    simp at hq
  have hp : ftsMatchParse q = Except.ok (ftsTokens q) := by
    unfold ftsMatchParse
    rw [if_neg hne]
  have hf : db.filter (fun r => rowMatches (ftsTokens q) r) = [] :=
    filter_eq_nil_of_none _ db hnm
  show runMatchQuery db q limit = Except.ok []
  unfold runMatchQuery
  rw [hp]
  simp [hf]

/-- C1, witness: the plain term query `zzz` matches no row of the one-row
table and returns the empty sequence. -/
theorem search_no_match_returns_nil_witness :
    plainTermQuery "zzz" = true ∧ (∀ r ∈ cDb, rowMatches (ftsTokens "zzz") r = false) ∧
      (search_files cDb "zzz" 7).2 = Except.ok [] :=
  ⟨by decide, by decide, search_no_match_returns_nil cDb "zzz" 7 (by decide) (by decide)⟩

/-- C2: the `SELECT` passes column index 0 — the `repo_name` column — to
`snippet`, so for a row matched through its `content` the returned
`preview` is the repository name, not a snippet of `content`: on
`bugRow` (content `"say hello world"`) the query `hello` yields the
preview `"strompris"`, while the snippet of the `content` column (index
3) would have been `"say ...hello... world"` with the match marked. -/
theorem search_preview_uses_repo_name_column :
    (search_files [bugRow] "hello" 50).2
        = Except.ok [{ repo_name := "strompris", filepath := "docs/readme.md",
                       filename := "readme.md", preview := "strompris" }]
    ∧ ftsSnippet (ftsTokens "hello") (colText bugRow 3) "..." "..." = "say ...hello... world"
    ∧ colText bugRow 0 = "strompris" :=
  ⟨rfl, rfl, rfl⟩

/-- C3: a complete run of `index_repositories` leaves the table holding
exactly the rows produced from the given locations' filtered files —
`expected_rows`, covering each location whose clone succeeded and passed
the `if repo_name:` truthiness guard — and nothing else: the result does
not depend on the table contents `db` before the call, because the full
`DELETE` precedes any reload. -/
theorem reindex_rows_exactly_from_locations (gitOk : String → Bool)
    (walk : String → List FileEntry) (rd : String) (fs : List String) (db : DB)
    (urls : List String) :
    (index_repositories gitOk walk rd fs db urls).2 = expected_rows gitOk walk urls :=
  index_repositories_rows gitOk walk rd fs db urls

/-- C4: files over 1,000,000 bytes contribute nothing to the index — the
statements of a walk equal those of the walk restricted to files within
the ceiling — and every insert the walk produces comes from a file of at
most 1,000,000 bytes. -/
theorem oversized_files_never_indexed (n : String) (files : List FileEntry) :
    index_repository_stmts n files
        = index_repository_stmts n (files.filter (fun f => !decide (f.size > 1000000)))
    ∧ ∀ s ∈ index_repository_stmts n files,
        ∃ f c, f ∈ files ∧ f.size ≤ 1000000 ∧ f.text = some c
          ∧ s = Stmt.insertRow (rowOfFile n f c) := by
  constructor
  · unfold index_repository_stmts
    refine filterMap_filter_eq (fileStmt n) _ ?_ files
    intro f hf
    simp at hf
    unfold fileStmt
    rw [if_pos hf]
  · intro s hs
    unfold index_repository_stmts at hs
    rw [List.mem_filterMap] at hs
    obtain ⟨f, hf, hfs⟩ := hs
    by_cases hsize : f.size > 1000000
    · unfold fileStmt at hfs
      simp [hsize] at hfs
    · unfold fileStmt at hfs
      rw [if_neg hsize] at hfs
      cases ht : f.text with
      | none => simp [ht] at hfs
      | some c =>
          simp [ht] at hfs
          exact ⟨f, c, hf, Nat.le_of_not_lt hsize, ht, hfs.symm⟩

/-- C4, witness: in `cFiles` (one small text file, one 2,000,000-byte
file, one non-UTF-8 file) the only insert produced is the small file's
row. -/
theorem oversized_files_never_indexed_witness :
    cStmtA ∈ index_repository_stmts "demo" cFiles
    ∧ ∃ f c, f ∈ cFiles ∧ f.size ≤ 1000000 ∧ f.text = some c
        ∧ cStmtA = Stmt.insertRow (rowOfFile "demo" f c) :=
  ⟨by decide, (oversized_files_never_indexed "demo" cFiles).2 cStmtA (by decide)⟩

/-- C5: files whose bytes are not valid UTF-8 (`FileEntry.text = none`,
modelling the caught `UnicodeDecodeError`) contribute nothing to the
index, and every insert the walk produces carries the decoded text of
its file. -/
theorem non_utf8_files_never_indexed (n : String) (files : List FileEntry) :
    index_repository_stmts n files
        = index_repository_stmts n (files.filter (fun f => f.text.isSome))
    ∧ ∀ s ∈ index_repository_stmts n files,
        ∃ f c, f ∈ files ∧ f.text = some c ∧ s = Stmt.insertRow (rowOfFile n f c) := by
  constructor
  · unfold index_repository_stmts
    refine filterMap_filter_eq (fileStmt n) _ ?_ files
    intro f hf
    cases ht : f.text with
    | none => exact fileStmt_text_none n f ht
    | some c => rw [ht] at hf; simp at hf
  · intro s hs
    unfold index_repository_stmts at hs
    rw [List.mem_filterMap] at hs
    obtain ⟨f, hf, hfs⟩ := hs
    by_cases hsize : f.size > 1000000
    · unfold fileStmt at hfs
      simp [hsize] at hfs
    · unfold fileStmt at hfs
      rw [if_neg hsize] at hfs
      cases ht : f.text with
      | none => simp [ht] at hfs
      | some c =>
          simp [ht] at hfs
          exact ⟨f, c, hf, ht, hfs.symm⟩

/-- C5, witness: in `cFiles` the non-UTF-8 file contributes nothing and
the produced insert carries decoded text. -/
theorem non_utf8_files_never_indexed_witness :
    cStmtA ∈ index_repository_stmts "demo" cFiles
    ∧ ∃ f c, f ∈ cFiles ∧ f.text = some c ∧ cStmtA = Stmt.insertRow (rowOfFile "demo" f c) :=
  ⟨by decide, (non_utf8_files_never_indexed "demo" cFiles).2 cStmtA (by decide)⟩

/-- C6: a location whose clone fails makes `clone_repo` return the
failure marker `none`, and the bulk reindex over a list containing it
leaves exactly the rows of the same run with that location removed — the
failing repository is skipped and every other location is still fetched
and indexed. -/
theorem fetch_failure_skipped_run_completes (gitOk : String → Bool)
    (walk : String → List FileEntry) (rd : String) (fs : List String) (db : DB)
    (us1 us2 : List String) (bad : String) (h : gitOk bad = false) :
    (clone_repo gitOk rd fs bad).2 = none
    ∧ (index_repositories gitOk walk rd fs db (us1 ++ bad :: us2)).2
        = (index_repositories gitOk walk rd fs db (us1 ++ us2)).2 := by
  constructor
  · simp [clone_repo_snd, h]
  · rw [index_repositories_rows, index_repositories_rows]
    have hcons : (bad :: us2) = [bad] ++ us2 := rfl
    rw [hcons, expected_rows_append, expected_rows_append, expected_rows_append]
    simp [expected_rows, h]

/-- C6, witness: with the oracle failing exactly on `bad://x`, the run
over `[a, bad, b]` leaves the rows of the run over `[a, b]`. -/
theorem fetch_failure_skipped_run_completes_witness :
    cGitOk "bad://x" = false
    ∧ ((clone_repo cGitOk "repos" [] "bad://x").2 = none
       ∧ (index_repositories cGitOk cWalk "repos" [] []
            (["https://h/a.git"] ++ "bad://x" :: ["https://h/b.git"])).2
          = (index_repositories cGitOk cWalk "repos" [] []
              (["https://h/a.git"] ++ ["https://h/b.git"])).2) :=
  ⟨by decide, fetch_failure_skipped_run_completes cGitOk cWalk "repos" [] []
      ["https://h/a.git"] ["https://h/b.git"] "bad://x" (by decide)⟩

/-- C7: `search_files` never returns more than `limit` hits; omitting the
limit means 50, as in the Python default `limit=50`; and on a table with
five matching rows a limit of 2 returns exactly the first two hits. -/
theorem search_respects_limit_and_default :
    (∀ (db : DB) (q : String) (limit : Nat), hitCount (search_files db q limit).2 ≤ limit)
    ∧ (∀ (db : DB) (q : String), search_files_default db q = search_files db q 50)
    ∧ (search_files fiveMatchDb "hello" 2).2 = Except.ok [cHit1, cHit2] := by
  refine ⟨?_, fun db q => rfl, rfl⟩
  intro db q limit
  show hitCount (runMatchQuery db q limit) ≤ limit
  unfold runMatchQuery
  cases hp : ftsMatchParse q with
  | error e => exact Nat.zero_le limit
  | ok ts =>
      show (((db.filter (fun r => rowMatches ts r)).map (hitOfRow ts)).take limit).length ≤ limit
      exact List.length_take_le limit _

/-- C8: running the bulk reindex twice with the same locations and the
same clone and walk oracles (identical repository content both times)
leaves the same rows as the first run, whatever the table held before. -/
theorem reindex_twice_idempotent (gitOk : String → Bool) (walk : String → List FileEntry)
    (rd : String) (fs fs2 : List String) (db : DB) (urls : List String) :
    (index_repositories gitOk walk rd fs2
        (index_repositories gitOk walk rd fs db urls).2 urls).2
      = (index_repositories gitOk walk rd fs db urls).2 := by
  rw [index_repositories_rows, index_repositories_rows]

/-- C9: for a location ending in `/` the derived `repo_name` is empty, the
working-copy path `os.path.join("repos", "")` is the repositories root
itself (`"repos/"`), that path exists, and the pre-fetch `rm -rf`
recursively deletes the entire root — destroying the working copies
`repos/alpha` and `repos/beta` of every other repository. -/
theorem trailing_slash_url_deletes_repos_root :
    splitextRoot (basename "https://example.com/group/") = ""
    ∧ pathJoin "repos" "" = "repos/"
    ∧ clone_repo (fun _ => false) "repos" ["repos", "repos/alpha", "repos/beta"]
        "https://example.com/group/" = ([], none)
    ∧ fsExists (clone_repo (fun _ => false) "repos" ["repos", "repos/alpha", "repos/beta"]
        "https://example.com/group/").1 "repos/alpha" = false :=
  ⟨by decide, by decide, by decide, by decide⟩

/-- C10: `search_files` only executes a `SELECT`, so the table after the
call equals the table before it, for every query — well-formed or
malformed — and every limit. -/
theorem search_leaves_index_unchanged (db : DB) (q : String) (limit : Nat) :
    (search_files db q limit).1 = db := rfl
